import Mathlib

/-!
Verification of the Uni-V3 liquidity backtester core against its
natural-language specification.  The Python source is shallowly embedded:
pure numeric code over floats becomes functions over the reals (the
square-root price math) or the rationals (the policy comparisons in the
backtest loop), Python ints become Int/Nat, and code that raises becomes
Except-valued.  Stateful methods of LiquidityManager are embedded as
functions returning both the operation result and the state as it stands
when the operation returns or raises, so that partial mutation before an
exception is observable in the model exactly as it is in Python.
-/

/-- Error taxonomy of the embedded code: each constructor stands for one
of the distinct ValueError raise sites in the source. -/
inductive Err where
  | invalidPrice
  | invalidBounds
  | zeroDenominator
  | invalidPeriod
  | futureTarget
  | noConvergence
  deriving DecidableEq, Repr

/-! ## Backtest-loop policy logic (main.py), over the rationals -/

/-- main.py line 67: price change fraction used for wick detection,
abs(current_price - past_price) / past_price. -/
def price_change_pct (current_price past_price : ℚ) : ℚ :=
  |current_price - past_price| / past_price

/-- main.py lines 69-70: the wick-based cooldown update.  The new
cooldown is installed exactly when the change reaches the threshold and
the current cooldown is unset or already passed (timestamp at or after
cooldown_until); otherwise the stored cooldown is kept as is. -/
def update_cooldown (wick_threshold wick_cooldown_hours : ℚ)
    (cooldown_until : Option ℚ) (timestamp pct : ℚ) : Option ℚ :=
  match cooldown_until with
  | none =>
      if wick_threshold ≤ pct then some (timestamp + wick_cooldown_hours)
      else none
  | some c =>
      if wick_threshold ≤ pct ∧ c ≤ timestamp then
        some (timestamp + wick_cooldown_hours)
      else some c

/-- main.py line 80: truthiness test `cooldown_until and timestamp <
cooldown_until` guarding the rebalance branch. -/
def in_cooldown (cooldown_until : Option ℚ) (timestamp : ℚ) : Bool :=
  match cooldown_until with
  | none => false
  | some c => decide (timestamp < c)

/-- main.py line 79: the buffered breach test,
price < p_a*(1 - buffer_pct) or price > p_b*(1 + buffer_pct). -/
def buffer_breached (buffer_pct p_a p_b price : ℚ) : Bool :=
  decide (price < p_a * (1 - buffer_pct)) || decide (p_b * (1 + buffer_pct) < price)

/-- main.py lines 79-86: a rebalance fires at a step exactly when the
buffered range is breached and the step is not inside an active
cooldown window. -/
def rebalance_fires (buffer_pct p_a p_b : ℚ) (cooldown_until : Option ℚ)
    (timestamp price : ℚ) : Bool :=
  buffer_breached buffer_pct p_a p_b price && !(in_cooldown cooldown_until timestamp)

/-! ## Block search (block_search.py), over Nat block numbers and Int timestamps -/

/-- block_search.py lines 87-105: the bisection loop.  `fuel` is the
remaining iteration budget max_tries - tries; the Python loop exits when
low >= high or the budget is spent, and then raises when the budget is
spent (even if the bracket had just collapsed).  `getTs` abstracts the
chain read web3.eth.get_block(mid).timestamp. -/
def bsearch_loop (getTs : Nat → Int) (target_ts : Int) (tolerance_seconds : Nat) :
    Nat → Nat → Nat → Except Err Nat
  | _, _, 0 => .error .noConvergence
  | low, high, fuel + 1 =>
    if low < high then
      let mid := (low + high) / 2
      let blk_ts := getTs mid
      if (blk_ts - target_ts).natAbs ≤ tolerance_seconds then .ok mid
      else if blk_ts < target_ts then
        bsearch_loop getTs target_ts tolerance_seconds (mid + 1) high fuel
      else
        bsearch_loop getTs target_ts tolerance_seconds low mid fuel
    else .ok low

/-- block_search.py get_block_by_timestamp: future-target check, quick
tolerance exit at the latest block, optional approx-block-time bracket
narrowing, then bisection.  The latest chain block is `latest_num` with
timestamp `getTs latest_num`. -/
def get_block_by_timestamp (getTs : Nat → Int) (latest_num : Nat) (target_ts : Int)
    (approx_block_time : Option Nat) (tolerance_seconds : Nat) (max_tries : Nat) :
    Except Err Nat :=
  let latest_ts := getTs latest_num
  if latest_ts < target_ts then .error .futureTarget
  else if (latest_ts - target_ts).natAbs ≤ tolerance_seconds then .ok latest_num
  else
    let lh : Nat × Nat :=
      match approx_block_time with
      | some abt =>
        if 0 < abt then
          let blocks_back : Nat := ((latest_ts - target_ts) / (abt : Int)).toNat
          let guess : Int := max 0 (min ((latest_num : Int) - (blocks_back : Int)) (latest_num : Int))
          let low : Nat := (max 0 (guess - 2 * (blocks_back : Int))).toNat
          let high : Nat := min latest_num (guess + 2 * (blocks_back : Int)).toNat
          if high ≤ low then (0, latest_num) else (low, high)
        else (0, latest_num)
      | none => (0, latest_num)
    bsearch_loop getTs target_ts tolerance_seconds lh.1 lh.2 max_tries

/-! ## Fee growth snapshots and deltas (fee_calculator.py) -/

/-- One fee-growth snapshot as returned by
FeeCalculator.get_fee_growth_snapshot.  lower_out0 stands for
lower_tick_data[2] (feeGrowthOutside0X128 at the lower tick),
lower_out1 for lower_tick_data[3], and similarly for the upper tick. -/
structure Snapshot where
  fee_growth_global0 : ℤ
  fee_growth_global1 : ℤ
  lower_out0 : ℤ
  lower_out1 : ℤ
  upper_out0 : ℤ
  upper_out1 : ℤ
  token0_decimals : ℕ
  token1_decimals : ℕ
  current_price_raw : ℝ
  mid_price : ℝ
  block_timestamp : ℤ
  block_number : ℕ

/-- fee_calculator.py lines 84-93: raw signed fee-growth deltas for the
two tokens between two snapshots. -/
def compute_fee_growth_delta (s0 s1 : Snapshot) : ℤ × ℤ :=
  let inside0_t0 := s0.fee_growth_global0 - s0.lower_out0 - s0.upper_out0
  let inside0_t1 := s1.fee_growth_global0 - s1.lower_out0 - s1.upper_out0
  let delta_fee_growth0 := inside0_t1 - inside0_t0
  let inside1_t0 := s0.fee_growth_global1 - s0.lower_out1 - s0.upper_out1
  let inside1_t1 := s1.fee_growth_global1 - s1.lower_out1 - s1.upper_out1
  let delta_fee_growth1 := inside1_t1 - inside1_t0
  (delta_fee_growth0, delta_fee_growth1)

/-- Modelled from the spec wording for comparison: fee growth inside the
range for token0 at one snapshot, feeGrowthGlobal -
feeGrowthOutside(lowerTick) - feeGrowthOutside(upperTick). -/
def fee_growth_inside0_spec (s : Snapshot) : ℤ :=
  s.fee_growth_global0 - s.lower_out0 - s.upper_out0

/-- Modelled from the spec wording for comparison: fee growth inside the
range for token1 at one snapshot. -/
def fee_growth_inside1_spec (s : Snapshot) : ℤ :=
  s.fee_growth_global1 - s.lower_out1 - s.upper_out1

/-! ## Liquidity simulation and fee/APR computation (fee_calculator.py), over the reals -/

/-- The configured liquidity range factors (config.LIQUIDITY_RANGE),
injected into the components that need them. -/
structure Config where
  lower_bound_factor : ℝ
  upper_bound_factor : ℝ

/-- The repository configuration: lower_bound_factor 0.85,
upper_bound_factor 1.15 (config.py lines 38-41). -/
noncomputable def repoConfig : Config := ⟨0.85, 1.15⟩

/-- fee_calculator.py lines 95-109: FeeCalculator.simulate_liquidity.
Raises when the cost-factor denominator is exactly zero. -/
noncomputable def simulate_liquidity (cfg : Config) (capital_usd : ℝ)
    (mid_price : ℝ) (token0_decimals token1_decimals : ℕ) (human_price : ℝ) :
    Except Err ℝ :=
  let lower_target_price := mid_price * cfg.lower_bound_factor
  let upper_target_price := mid_price * cfg.upper_bound_factor
  let sqrtP := Real.sqrt mid_price
  let sqrtPa := Real.sqrt lower_target_price
  let sqrtPb := Real.sqrt upper_target_price
  let token0_cost_factor := ((sqrtPb - sqrtP) / (sqrtP * sqrtPb)) / (10 : ℝ) ^ token0_decimals
  let token1_cost_factor := (sqrtP - sqrtPa) * human_price / (10 : ℝ) ^ token1_decimals
  let denom := token0_cost_factor + token1_cost_factor
  if denom = 0 then .error .zeroDenominator
  else .ok (capital_usd / denom)

/-- Result record of FeeCalculator.compute_fees_and_apr. -/
structure FeesResult where
  fees_token0_raw : ℝ
  fees_token1_raw : ℝ
  total_fees_usd : ℝ
  simulated_liquidity : ℝ
  period_seconds : ℤ
  apr_percent : ℝ

/-- fee_calculator.py lines 111-151: FeeCalculator.compute_fees_and_apr.
The liquidity simulation runs first (and can raise on a zero
denominator); the period check raises after the fee conversion, before
the APR is formed.  Python float division is modelled by total real
division. -/
noncomputable def compute_fees_and_apr (cfg : Config) (capital_usd : ℝ)
    (s0 s1 : Snapshot) (override_liquidity_snapshot : Option Snapshot) :
    Except Err FeesResult :=
  let deltas := compute_fee_growth_delta s0 s1
  let mid_price :=
    match override_liquidity_snapshot with
    | some s => s.current_price_raw
    | none => s1.current_price_raw
  let human_price :=
    match override_liquidity_snapshot with
    | some s => s.mid_price
    | none => s1.mid_price
  let token0_decimals := s1.token0_decimals
  let token1_decimals := s1.token1_decimals
  match simulate_liquidity cfg capital_usd mid_price token0_decimals token1_decimals human_price with
  | .error e => .error e
  | .ok L =>
    let scaling_factor : ℝ := 2 ^ (128 : ℕ)
    let fee_growth_per_unit0 := (deltas.1 : ℝ) / scaling_factor
    let fee_growth_per_unit1 := (deltas.2 : ℝ) / scaling_factor
    let fees_token0_raw := fee_growth_per_unit0 * L
    let fees_token1_raw := fee_growth_per_unit1 * L
    let fees_usd_token0 := fees_token0_raw / (10 : ℝ) ^ token0_decimals
    let fees_usd_token1 := fees_token1_raw / (10 : ℝ) ^ token1_decimals * human_price
    let total_fees_usd := fees_usd_token0 + fees_usd_token1
    let period_seconds := s1.block_timestamp - s0.block_timestamp
    if period_seconds ≤ 0 then .error .invalidPeriod
    else
      let seconds_per_year : ℤ := 365 * 24 * 3600
      let annualization_factor := (seconds_per_year : ℝ) / (period_seconds : ℝ)
      let apr_percent := total_fees_usd / capital_usd * annualization_factor * 100
      .ok ⟨fees_token0_raw, fees_token1_raw, total_fees_usd, L, period_seconds, apr_percent⟩

/-! ## Liquidity manager (liquidity_manager.py), over the reals -/

/-- The sizing denominator of
LiquidityManager._compute_liquidity_for_capital (liquidity_manager.py
lines 42-44): x_human * p + y_human with x_human = 1/sqrt(p) -
1/sqrt(p_b) and y_human = sqrt(p) - sqrt(p_a). -/
noncomputable def liquidityDenom (p p_a p_b : ℝ) : ℝ :=
  (1 / Real.sqrt p - 1 / Real.sqrt p_b) * p + (Real.sqrt p - Real.sqrt p_a)

/-- liquidity_manager.py lines 35-50:
LiquidityManager._compute_liquidity_for_capital. -/
noncomputable def compute_liquidity_for_capital (capital p p_a p_b : ℝ) :
    Except Err ℝ :=
  if p ≤ 0 then .error .invalidPrice
  else if p_a ≥ p_b then .error .invalidBounds
  else if liquidityDenom p p_a p_b = 0 then .error .zeroDenominator
  else .ok (capital / liquidityDenom p p_a p_b)

/-- Modelled from the spec wording for comparison: the sizing formula as
section 4.3 writes it, with the price multiplier on the token1 leg:
L = capital / ((1/sqrt(price) - 1/sqrt(upperBound)) +
(sqrt(price) - sqrt(lowerBound)) * price). -/
noncomputable def size_liquidity_spec_formula (capital p p_a p_b : ℝ) : ℝ :=
  capital / ((1 / Real.sqrt p - 1 / Real.sqrt p_b) + (Real.sqrt p - Real.sqrt p_a) * p)

/-- The stored position record (liquidity_manager.py lines 87-94). -/
structure Position where
  open_price : ℝ
  p_a : ℝ
  p_b : ℝ
  open_timestamp : ℤ
  capital_deployed : ℝ
  L_human : ℝ

/-- The mutable state of a LiquidityManager that the lifecycle
operations touch: the stored position and the running capital, plus the
read-only slippage factor. -/
structure ManagerState where
  current_capital : ℝ
  position : Option Position
  slippage_factor : ℝ

/-- liquidity_manager.py lines 52-69: mark-to-market value of an open
position at price p (the three-branch Uniswap v3 payoff). -/
noncomputable def get_position_value_open (pos : Position) (p : ℝ) : ℝ :=
  if p ≤ pos.p_a then
    pos.L_human * (1 / Real.sqrt pos.p_a - 1 / Real.sqrt pos.p_b) * p
  else if p ≥ pos.p_b then
    pos.L_human * (Real.sqrt pos.p_b - Real.sqrt pos.p_a)
  else
    pos.L_human * (1 / Real.sqrt p - 1 / Real.sqrt pos.p_b) * p +
      pos.L_human * (Real.sqrt p - Real.sqrt pos.p_a)

/-- liquidity_manager.py lines 52-54 and 152-153: value of the manager,
zero when no position is open. -/
noncomputable def get_position_value (s : ManagerState) (p : ℝ) : ℝ :=
  match s.position with
  | none => 0
  | some pos => get_position_value_open pos p

/-- liquidity_manager.py lines 71-98: LiquidityManager.open_position.
Returns the operation result together with the state at return or raise
time; the position is only stored after the sizing succeeds, so a raise
leaves the state untouched. -/
noncomputable def open_position (cfg : Config) (s : ManagerState)
    (current_price : ℝ) (current_timestamp : ℤ) :
    Except Err Position × ManagerState :=
  let p_a := current_price * cfg.lower_bound_factor
  let p_b := current_price * cfg.upper_bound_factor
  if p_a ≥ p_b then (.error .invalidBounds, s)
  else
    let p0 := max (min current_price p_b) p_a
    match compute_liquidity_for_capital s.current_capital p0 p_a p_b with
    | .error e => (.error e, s)
    | .ok L =>
      let pos : Position :=
        ⟨current_price, p_a, p_b, current_timestamp, s.current_capital, L⟩
      (.ok pos, { s with position := some pos })

/-- liquidity_manager.py lines 100-141: LiquidityManager.close_position.
The FeeCalculator.calculate_fees call is a network-backed computation;
its outcome (the total_fees_usd value, or a raise) is passed in as
fee_result.  Capital and position are only written after the fee
computation succeeds (step 4 of the source), so a raise leaves the state
untouched. -/
noncomputable def close_position (s : ManagerState) (current_price : ℝ)
    (current_timestamp : ℤ) (fee_result : Except Err ℝ) :
    Except Err ℝ × ManagerState :=
  match s.position with
  | none => (.ok s.current_capital, s)
  | some pos =>
    let position_value_before_slippage := get_position_value_open pos current_price
    let net_quote := position_value_before_slippage * (1 - s.slippage_factor)
    match fee_result with
    | .error e => (.error e, s)
    | .ok fees =>
      let total_value := net_quote + fees
      (.ok total_value, { s with current_capital := total_value, position := none })

/-- liquidity_manager.py lines 143-150: LiquidityManager.rebalance_position,
close followed by open with no exception guard in between. -/
noncomputable def rebalance_position (cfg : Config) (s : ManagerState)
    (current_price : ℝ) (current_timestamp : ℤ) (fee_result : Except Err ℝ) :
    Except Err Position × ManagerState :=
  let closed := close_position s current_price current_timestamp fee_result
  match closed.1 with
  | .error e => (.error e, closed.2)
  | .ok _ => open_position cfg closed.2 current_price current_timestamp

/-! ## Claim C2: wick cooldown extension -/

/-- Claim C2 counterexample: a fresh wick strictly inside an active
cooldown window does not extend the cooldown.  At timestamp 2 with an
active cooldown until 4, a 9 percent move (threshold 8 percent) leaves
cooldown_until at 4 instead of setting it to 2 + 4 = 6. -/
theorem wick_inside_cooldown_not_extended :
    update_cooldown (8/100) 4 (some 4) 2 (price_change_pct 109 100) = some 4 ∧
    some (4 : ℚ) ≠ some ((2 : ℚ) + 4) := by
  constructor
  · norm_num [update_cooldown, price_change_pct]
  · norm_num

/-- Claim C2 (amended): the cooldown update leaves cooldown_until
unchanged when the move is below threshold, and also when a wick fires
strictly inside an active cooldown; it installs timestamp +
wickCooldownHours exactly when the move reaches the threshold and the
cooldown is unset or already passed. -/
theorem update_cooldown_characterization (thr hrs pct t : ℚ) (cu : Option ℚ) :
    (pct < thr → update_cooldown thr hrs cu t pct = cu) ∧
    (∀ c, cu = some c → t < c → update_cooldown thr hrs cu t pct = some c) ∧
    (thr ≤ pct → (cu = none ∨ ∃ c, cu = some c ∧ c ≤ t) →
      update_cooldown thr hrs cu t pct = some (t + hrs)) := by
  refine ⟨?_, ?_, ?_⟩
  · intro hlt
    cases cu with
    | none => simp [update_cooldown, not_le.mpr hlt]
    | some c => simp [update_cooldown, not_le.mpr hlt]
  · intro c hc hts
    subst hc
    simp [update_cooldown, not_le.mpr hts]
  · intro hth hcu
    rcases hcu with h | ⟨c, hc, hct⟩
    · subst h; simp [update_cooldown, hth]
    · subst hc; simp [update_cooldown, hth, hct]

/-- Witness for the amended C2 theorem at a concrete input: threshold
8/100, cooldown hours 4, an expired cooldown (until 1) at timestamp 2,
move 9/100. -/
theorem update_cooldown_characterization_witness :
    update_cooldown (8/100) 4 (some 1) 2 (9/100) = some ((2 : ℚ) + 4) :=
  (update_cooldown_characterization (8/100) 4 (9/100) 2 (some 1)).2.2
    (by norm_num) (Or.inr ⟨1, rfl, by norm_num⟩)

/-! ## Claim C8: buffered rebalance trigger -/

/-- Claim C8: at a loop step with an open position of range
(p_a, p_b), the rebalance fires exactly when the buffered range is
breached and the step is not inside an active cooldown; with range
(1700, 2300) and buffer 1/100, price 2324 fires, price 2320 does not,
and a breach inside a cooldown window does not fire. -/
theorem rebalance_fires_iff (b p_a p_b t price : ℚ) (cu : Option ℚ) :
    (rebalance_fires b p_a p_b cu t price = true ↔
      ((price < p_a * (1 - b) ∨ p_b * (1 + b) < price) ∧
        ∀ c, cu = some c → ¬ t < c)) ∧
    rebalance_fires (1/100) 1700 2300 none 0 2324 = true ∧
    rebalance_fires (1/100) 1700 2300 none 0 2320 = false ∧
    rebalance_fires (1/100) 1700 2300 (some 5) 3 2324 = false := by
  refine ⟨?_, ?_, ?_, ?_⟩
  · cases cu with
    | none => simp [rebalance_fires, buffer_breached, in_cooldown]
    | some c => simp [rebalance_fires, buffer_breached, in_cooldown]
  · norm_num [rebalance_fires, buffer_breached, in_cooldown]
  · norm_num [rebalance_fires, buffer_breached, in_cooldown]
  · norm_num [rebalance_fires, buffer_breached, in_cooldown]

/-! ## Claim C6: raw signed fee-growth delta -/

/-- Claim C6: for every pair of snapshots the fee-growth delta per token
is the raw signed difference of the inside-growth values (inside-growth
as the spec defines it), with no wraparound correction, and the delta
can indeed be negative. -/
theorem fee_growth_delta_raw_signed :
    (∀ s0 s1 : Snapshot, compute_fee_growth_delta s0 s1 =
      (fee_growth_inside0_spec s1 - fee_growth_inside0_spec s0,
       fee_growth_inside1_spec s1 - fee_growth_inside1_spec s0)) ∧
    (∃ s0 s1 : Snapshot, (compute_fee_growth_delta s0 s1).1 < 0) := by
  constructor
  · intro s0 s1
    simp [compute_fee_growth_delta, fee_growth_inside0_spec, fee_growth_inside1_spec]
  · exact ⟨⟨1, 0, 0, 0, 0, 0, 0, 0, 0, 0, 0, 0⟩,
      ⟨0, 0, 0, 0, 0, 0, 0, 0, 0, 0, 0, 0⟩,
      by norm_num [compute_fee_growth_delta]⟩

/-! ## Helper lemmas for the square-root price math -/

lemma sqrt_four : Real.sqrt 4 = 2 := by
  rw [show (4 : ℝ) = 2 ^ 2 by norm_num, Real.sqrt_sq (by norm_num : (0:ℝ) ≤ 2)]

lemma sqrt_sixteen : Real.sqrt 16 = 4 := by
  rw [show (16 : ℝ) = 4 ^ 2 by norm_num, Real.sqrt_sq (by norm_num : (0:ℝ) ≤ 4)]

lemma denom_4_1_16 : liquidityDenom 4 1 16 = 2 := by
  unfold liquidityDenom
  rw [sqrt_four, sqrt_sixteen, Real.sqrt_one]
  norm_num

/-- The sizing denominator is strictly positive whenever the reference
price sits inside a nondegenerate positive range. -/
lemma liquidityDenom_pos {p p_a p_b : ℝ} (ha : 0 < p_a) (h1 : p_a ≤ p)
    (h2 : p ≤ p_b) (hab : p_a < p_b) : 0 < liquidityDenom p p_a p_b := by
  have hp : 0 < p := lt_of_lt_of_le ha h1
  have hb : 0 < p_b := lt_trans ha hab
  have hsp : 0 < Real.sqrt p := Real.sqrt_pos.mpr hp
  have hy : 0 ≤ Real.sqrt p - Real.sqrt p_a := by
    have := Real.sqrt_le_sqrt h1
    linarith
  rcases lt_or_eq_of_le h2 with hlt | heq
  · have hslt : Real.sqrt p < Real.sqrt p_b := Real.sqrt_lt_sqrt hp.le hlt
    have hx : 0 < 1 / Real.sqrt p - 1 / Real.sqrt p_b := by
      have := one_div_lt_one_div_of_lt hsp hslt
      linarith
    have hxp : 0 < (1 / Real.sqrt p - 1 / Real.sqrt p_b) * p := mul_pos hx hp
    unfold liquidityDenom
    linarith
  · have hy' : 0 < Real.sqrt p_b - Real.sqrt p_a :=
      sub_pos.mpr (Real.sqrt_lt_sqrt ha.le hab)
    unfold liquidityDenom
    rw [heq]
    have hzero : (1 / Real.sqrt p_b - 1 / Real.sqrt p_b) * p_b = 0 := by ring
    rw [hzero, zero_add]
    linarith

/-- Successful unfolding of open_position: with a positive price and
ordered positive range factors, the bound check and the sizing all pass
and the stored position is fully explicit. -/
lemma open_position_ok (cfg : Config) (s : ManagerState) (price : ℝ) (ts : ℤ)
    (hp : 0 < price) (h0 : 0 < cfg.lower_bound_factor)
    (hf : cfg.lower_bound_factor < cfg.upper_bound_factor) :
    open_position cfg s price ts =
      (.ok ⟨price, price * cfg.lower_bound_factor, price * cfg.upper_bound_factor, ts,
          s.current_capital,
          s.current_capital /
            liquidityDenom (max (min price (price * cfg.upper_bound_factor)) (price * cfg.lower_bound_factor))
              (price * cfg.lower_bound_factor) (price * cfg.upper_bound_factor)⟩,
        { s with position := some (⟨price, price * cfg.lower_bound_factor,
            price * cfg.upper_bound_factor, ts, s.current_capital,
            s.current_capital /
              liquidityDenom (max (min price (price * cfg.upper_bound_factor)) (price * cfg.lower_bound_factor))
                (price * cfg.lower_bound_factor) (price * cfg.upper_bound_factor)⟩ : Position) }) := by
  have hpa_lt : price * cfg.lower_bound_factor < price * cfg.upper_bound_factor :=
    mul_lt_mul_of_pos_left hf hp
  have hpa_pos : 0 < price * cfg.lower_bound_factor := mul_pos hp h0
  have hp0_lb : price * cfg.lower_bound_factor ≤
      max (min price (price * cfg.upper_bound_factor)) (price * cfg.lower_bound_factor) :=
    le_max_right _ _
  have hp0_ub : max (min price (price * cfg.upper_bound_factor)) (price * cfg.lower_bound_factor) ≤
      price * cfg.upper_bound_factor :=
    max_le (min_le_right _ _) hpa_lt.le
  have hp0_pos : 0 < max (min price (price * cfg.upper_bound_factor)) (price * cfg.lower_bound_factor) :=
    lt_of_lt_of_le hpa_pos hp0_lb
  have hd : 0 < liquidityDenom
      (max (min price (price * cfg.upper_bound_factor)) (price * cfg.lower_bound_factor))
      (price * cfg.lower_bound_factor) (price * cfg.upper_bound_factor) :=
    liquidityDenom_pos hpa_pos hp0_lb hp0_ub hpa_lt
  have hcl : compute_liquidity_for_capital s.current_capital
      (max (min price (price * cfg.upper_bound_factor)) (price * cfg.lower_bound_factor))
      (price * cfg.lower_bound_factor) (price * cfg.upper_bound_factor) =
      .ok (s.current_capital /
        liquidityDenom (max (min price (price * cfg.upper_bound_factor)) (price * cfg.lower_bound_factor))
          (price * cfg.lower_bound_factor) (price * cfg.upper_bound_factor)) := by
    unfold compute_liquidity_for_capital
    rw [if_neg (not_le.mpr hp0_pos), if_neg (not_le.mpr hpa_lt), if_neg hd.ne']
  unfold open_position
  rw [if_neg (not_le.mpr hpa_lt)]
  simp only [hcl]

/-! ## Claim C1: where the price multiplier sits in the sizing formula -/

/-- Claim C1 counterexample: at capital 2, price 4, bounds (1, 16) the
code returns L = 1 (price multiplier on the token0 leg), whereas the
formula as the spec writes it (price multiplier on the token1 leg)
yields 8/17. -/
theorem size_liquidity_spec_formula_cex :
    compute_liquidity_for_capital 2 4 1 16 = .ok 1 ∧
    size_liquidity_spec_formula 2 4 1 16 = 8 / 17 ∧ (8 / 17 : ℝ) ≠ 1 := by
  refine ⟨?_, ?_, by norm_num⟩
  · unfold compute_liquidity_for_capital
    rw [denom_4_1_16]
    norm_num
  · unfold size_liquidity_spec_formula
    rw [sqrt_four, sqrt_sixteen, Real.sqrt_one]
    norm_num

/-- Claim C1 (amended): for every capital, price > 0 and bounds
lowerBound < upperBound with nonzero denominator, sizeLiquidity returns
capital / (token0CostFactor + token1CostFactor) where the price
multiplier sits on the token0 leg: token0CostFactor =
(1/sqrt(price) - 1/sqrt(upperBound)) * price and token1CostFactor =
sqrt(price) - sqrt(lowerBound). -/
theorem size_liquidity_price_on_token0_leg (capital p p_a p_b : ℝ)
    (hp : 0 < p) (hab : p_a < p_b) (hd : liquidityDenom p p_a p_b ≠ 0) :
    compute_liquidity_for_capital capital p p_a p_b =
      .ok (capital /
        ((1 / Real.sqrt p - 1 / Real.sqrt p_b) * p + (Real.sqrt p - Real.sqrt p_a))) := by
  unfold compute_liquidity_for_capital
  rw [if_neg (not_le.mpr hp), if_neg (not_le.mpr hab), if_neg hd]
  rfl

/-- Witness for the amended C1 theorem at capital 3, price 4,
bounds (1, 16). -/
theorem size_liquidity_price_on_token0_leg_witness :
    ((0 : ℝ) < 4 ∧ (1 : ℝ) < 16 ∧ liquidityDenom 4 1 16 ≠ 0) ∧
    compute_liquidity_for_capital 3 4 1 16 =
      .ok (3 / ((1 / Real.sqrt 4 - 1 / Real.sqrt 16) * 4 + (Real.sqrt 4 - Real.sqrt 1))) :=
  ⟨⟨by norm_num, by norm_num, by rw [denom_4_1_16]; norm_num⟩,
    size_liquidity_price_on_token0_leg 3 4 1 16 (by norm_num) (by norm_num)
      (by rw [denom_4_1_16]; norm_num)⟩

/-! ## Claim C5: sizing and valuation round-trip -/

/-- Claim C5: for capital and any price strictly inside a positive
range, the position value at that price, with liquidity sized by
compute_liquidity_for_capital at the same price, reconstructs the
capital exactly. -/
theorem position_value_roundtrip (capital p p_a p_b : ℝ)
    (ha : 0 < p_a) (h1 : p_a < p) (h2 : p < p_b) :
    ∃ L, compute_liquidity_for_capital capital p p_a p_b = .ok L ∧
      get_position_value_open ⟨p, p_a, p_b, 0, capital, L⟩ p = capital := by
  have hp : 0 < p := ha.trans h1
  have hab : p_a < p_b := h1.trans h2
  have hd : 0 < liquidityDenom p p_a p_b := liquidityDenom_pos ha h1.le h2.le hab
  refine ⟨capital / liquidityDenom p p_a p_b, ?_, ?_⟩
  · unfold compute_liquidity_for_capital
    rw [if_neg (not_le.mpr hp), if_neg (not_le.mpr hab), if_neg hd.ne']
  · unfold get_position_value_open
    dsimp only
    rw [if_neg (not_le.mpr h1), if_neg (not_le.mpr h2)]
    have hsum : capital / liquidityDenom p p_a p_b * (1 / Real.sqrt p - 1 / Real.sqrt p_b) * p +
        capital / liquidityDenom p p_a p_b * (Real.sqrt p - Real.sqrt p_a) =
        capital / liquidityDenom p p_a p_b * liquidityDenom p p_a p_b := by
      unfold liquidityDenom
      ring
    rw [hsum, div_mul_cancel₀ capital hd.ne']

/-- Witness for the C5 round-trip at capital 1000, price 4,
bounds (1, 16). -/
theorem position_value_roundtrip_witness :
    ((0 : ℝ) < 1 ∧ (1 : ℝ) < 4 ∧ (4 : ℝ) < 16) ∧
    ∃ L, compute_liquidity_for_capital 1000 4 1 16 = .ok L ∧
      get_position_value_open ⟨4, 1, 16, 0, 1000, L⟩ 4 = 1000 :=
  ⟨⟨by norm_num, by norm_num, by norm_num⟩,
    position_value_roundtrip 1000 4 1 16 (by norm_num) (by norm_num) (by norm_num)⟩

/-! ## Claim C9: currentCapital is mutated only by close -/

/-- Claim C9: open_position never changes current_capital (whether it
succeeds or raises), and close_position on an open position with a
successful fee computation sets current_capital to the
slippage-adjusted position value plus the accrued fees.
get_position_value is embedded as a pure function of the state, so it
mutates nothing by construction. -/
theorem capital_mutated_only_by_close :
    (∀ (cfg : Config) (s : ManagerState) (price : ℝ) (ts : ℤ),
      (open_position cfg s price ts).2.current_capital = s.current_capital) ∧
    (∀ (s : ManagerState) (pos : Position) (price : ℝ) (ts : ℤ) (fees : ℝ),
      (close_position { s with position := some pos } price ts (.ok fees)).2.current_capital =
        get_position_value_open pos price * (1 - s.slippage_factor) + fees) := by
  constructor
  · intro cfg s price ts
    unfold open_position
    by_cases h : price * cfg.lower_bound_factor ≥ price * cfg.upper_bound_factor
    · rw [if_pos h]
    · rw [if_neg h]
      dsimp only
      rcases hL : compute_liquidity_for_capital s.current_capital
          (max (min price (price * cfg.upper_bound_factor)) (price * cfg.lower_bound_factor))
          (price * cfg.lower_bound_factor) (price * cfg.upper_bound_factor) with e | L
      · simp [hL]
      · simp [hL]
  · intro s pos price ts fees
    simp [close_position]

/-! ## Claim C10: open_position totality and positive liquidity -/

/-- Claim C10 counterexample: with zero current capital, price 1 and the
repository range factors, open_position succeeds but stores liquidity
L = 0, so the claimed conclusion L > 0 does not hold without a
positive-capital assumption. -/
theorem open_position_zero_capital_cex :
    ∃ pos : Position, (open_position repoConfig ⟨0, none, 1/1000⟩ 1 0).1 = .ok pos ∧
      ¬ (0 < pos.L_human) := by
  have h := open_position_ok repoConfig ⟨0, none, 1/1000⟩ 1 0 (by norm_num)
    (by norm_num [repoConfig]) (by norm_num [repoConfig])
  refine ⟨_, by rw [h], ?_⟩
  dsimp only
  rw [zero_div]
  norm_num

/-- Claim C10 (amended): with price > 0, factors 0 < lowerBoundFactor <
upperBoundFactor and positive current capital, the clamped sizing
reference keeps the denominator strictly positive, the zero-denominator
branch is unreachable, and open_position succeeds storing a position
with lowerBound < upperBound and L > 0; the state is only extended with
that position. -/
theorem open_position_succeeds (cfg : Config) (s : ManagerState) (price : ℝ) (ts : ℤ)
    (hp : 0 < price) (h0 : 0 < cfg.lower_bound_factor)
    (hf : cfg.lower_bound_factor < cfg.upper_bound_factor)
    (hcap : 0 < s.current_capital) :
    ∃ pos : Position,
      open_position cfg s price ts = (.ok pos, { s with position := some pos }) ∧
      pos.p_a < pos.p_b ∧ 0 < pos.L_human := by
  have h := open_position_ok cfg s price ts hp h0 hf
  have hpa_lt : price * cfg.lower_bound_factor < price * cfg.upper_bound_factor :=
    mul_lt_mul_of_pos_left hf hp
  have hpa_pos : 0 < price * cfg.lower_bound_factor := mul_pos hp h0
  have hp0_lb : price * cfg.lower_bound_factor ≤
      max (min price (price * cfg.upper_bound_factor)) (price * cfg.lower_bound_factor) :=
    le_max_right _ _
  have hp0_ub : max (min price (price * cfg.upper_bound_factor)) (price * cfg.lower_bound_factor) ≤
      price * cfg.upper_bound_factor :=
    max_le (min_le_right _ _) hpa_lt.le
  have hd : 0 < liquidityDenom
      (max (min price (price * cfg.upper_bound_factor)) (price * cfg.lower_bound_factor))
      (price * cfg.lower_bound_factor) (price * cfg.upper_bound_factor) :=
    liquidityDenom_pos hpa_pos hp0_lb hp0_ub hpa_lt
  refine ⟨_, h, hpa_lt, ?_⟩
  exact div_pos hcap hd

/-- Witness for the amended C10 theorem: repository factors, capital
1000, price 100. -/
theorem open_position_succeeds_witness :
    ((0 : ℝ) < 100 ∧ 0 < repoConfig.lower_bound_factor ∧
      repoConfig.lower_bound_factor < repoConfig.upper_bound_factor ∧
      (0 : ℝ) < 1000) ∧
    ∃ pos : Position,
      open_position repoConfig ⟨1000, none, 1/1000⟩ 100 0 =
        (.ok pos, { current_capital := 1000, position := some pos, slippage_factor := 1/1000 }) ∧
      pos.p_a < pos.p_b ∧ 0 < pos.L_human :=
  ⟨⟨by norm_num, by norm_num [repoConfig], by norm_num [repoConfig], by norm_num⟩,
    open_position_succeeds repoConfig ⟨1000, none, 1/1000⟩ 100 0 (by norm_num)
      (by norm_num [repoConfig]) (by norm_num [repoConfig]) (by norm_num)⟩

/-! ## Claim C4: rebalance is not atomic -/

/-- Claim C4 evaluated at a failing input: a manager holding the
position (range (1,4), L = 3, capital 1000, slippage 0) rebalanced at
price 9 under inverted range factors (1.2, 1.1) and a successful fee
computation returning 0.  The close step succeeds (price 9 is above the
range, value 3*(sqrt 4 - sqrt 1) = 3), capital is updated to 3 and the
position cleared; the open step then raises on inverted bounds, so the
operation returns an error while the manager is left in the
intermediate Empty state with mutated capital - contradicting the
no-partial-mutation requirement. -/
theorem rebalance_not_atomic :
    (rebalance_position ⟨1.2, 1.1⟩ ⟨1000, some ⟨2, 1, 4, 0, 1000, 3⟩, 0⟩ 9 1 (.ok 0)).1 =
      .error .invalidBounds ∧
    (rebalance_position ⟨1.2, 1.1⟩ ⟨1000, some ⟨2, 1, 4, 0, 1000, 3⟩, 0⟩ 9 1 (.ok 0)).2 =
      ⟨3, none, 0⟩ ∧
    ((3 : ℝ) ≠ 1000) := by
  have hval : get_position_value_open ⟨2, 1, 4, 0, 1000, 3⟩ 9 = 3 := by
    unfold get_position_value_open
    dsimp only
    rw [if_neg (by norm_num : ¬ (9 : ℝ) ≤ 1), if_pos (by norm_num : (9 : ℝ) ≥ 4)]
    rw [sqrt_four, Real.sqrt_one]
    norm_num
  have hclose : close_position ⟨1000, some ⟨2, 1, 4, 0, 1000, 3⟩, 0⟩ 9 1 (.ok 0) =
      (.ok 3, ⟨3, none, 0⟩) := by
    unfold close_position
    dsimp only
    rw [hval]
    norm_num
  have hopen : (9 : ℝ) * 1.2 ≥ 9 * 1.1 := by norm_num
  refine ⟨?_, ?_, by norm_num⟩
  · unfold rebalance_position
    rw [hclose]
    dsimp only
    unfold open_position
    rw [if_pos hopen]
  · unfold rebalance_position
    rw [hclose]
    dsimp only
    unfold open_position
    rw [if_pos hopen]

/-! ## Claim C7: period validation and zero-delta fees -/

/-- With a positive raw mid price, nonnegative human price and factors
0 < lower <= 1 < upper, the simulate_liquidity cost-factor denominator
is strictly positive. -/
lemma simulate_denom_pos (cfg : Config) (mid hp : ℝ) (d0 d1 : ℕ)
    (hmid : 0 < mid) (hhp : 0 ≤ hp) (h0 : 0 < cfg.lower_bound_factor)
    (hl1 : cfg.lower_bound_factor ≤ 1) (hub : 1 < cfg.upper_bound_factor) :
    0 < ((Real.sqrt (mid * cfg.upper_bound_factor) - Real.sqrt mid) /
          (Real.sqrt mid * Real.sqrt (mid * cfg.upper_bound_factor))) / (10 : ℝ) ^ d0 +
        (Real.sqrt mid - Real.sqrt (mid * cfg.lower_bound_factor)) * hp / (10 : ℝ) ^ d1 := by
  have hsp : 0 < Real.sqrt mid := Real.sqrt_pos.mpr hmid
  have hub' : mid < mid * cfg.upper_bound_factor := by
    nlinarith
  have hspb : 0 < Real.sqrt (mid * cfg.upper_bound_factor) :=
    Real.sqrt_pos.mpr (hmid.trans hub')
  have hnum : 0 < Real.sqrt (mid * cfg.upper_bound_factor) - Real.sqrt mid :=
    sub_pos.mpr (Real.sqrt_lt_sqrt hmid.le hub')
  have ht0 : 0 < ((Real.sqrt (mid * cfg.upper_bound_factor) - Real.sqrt mid) /
      (Real.sqrt mid * Real.sqrt (mid * cfg.upper_bound_factor))) / (10 : ℝ) ^ d0 :=
    div_pos (div_pos hnum (mul_pos hsp hspb)) (pow_pos (by norm_num) d0)
  have hlb' : mid * cfg.lower_bound_factor ≤ mid := by
    nlinarith
  have ht1 : 0 ≤ (Real.sqrt mid - Real.sqrt (mid * cfg.lower_bound_factor)) * hp / (10 : ℝ) ^ d1 := by
    have hy : 0 ≤ Real.sqrt mid - Real.sqrt (mid * cfg.lower_bound_factor) := by
      have := Real.sqrt_le_sqrt hlb'
      linarith
    exact div_nonneg (mul_nonneg hy hhp) (by positivity)
  linarith

/-- Under the same well-formedness hypotheses, simulate_liquidity
succeeds and returns capital divided by the explicit denominator. -/
lemma simulate_liquidity_ok (cfg : Config) (capital mid hp : ℝ) (d0 d1 : ℕ)
    (hmid : 0 < mid) (hhp : 0 ≤ hp) (h0 : 0 < cfg.lower_bound_factor)
    (hl1 : cfg.lower_bound_factor ≤ 1) (hub : 1 < cfg.upper_bound_factor) :
    simulate_liquidity cfg capital mid d0 d1 hp =
      .ok (capital /
        (((Real.sqrt (mid * cfg.upper_bound_factor) - Real.sqrt mid) /
            (Real.sqrt mid * Real.sqrt (mid * cfg.upper_bound_factor))) / (10 : ℝ) ^ d0 +
          (Real.sqrt mid - Real.sqrt (mid * cfg.lower_bound_factor)) * hp / (10 : ℝ) ^ d1)) := by
  have hd := simulate_denom_pos cfg mid hp d0 d1 hmid hhp h0 hl1 hub
  unfold simulate_liquidity
  rw [if_neg hd.ne']

/-- Claim C7: for well-formed snapshots (positive raw price,
nonnegative human price at the liquidity snapshot) and the configured
factors 0 < lower <= 1 < upper, compute_fees_and_apr raises
InvalidPeriod whenever the snapshot timestamp difference is nonpositive,
and for a positive period with both fee-growth deltas zero it returns
total fees 0 and APR 0. -/
theorem compute_fees_and_apr_period_and_zero (cfg : Config) (capital : ℝ)
    (s0 s1 : Snapshot)
    (hmid : 0 < s1.current_price_raw) (hhp : 0 ≤ s1.mid_price)
    (h0 : 0 < cfg.lower_bound_factor) (hl1 : cfg.lower_bound_factor ≤ 1)
    (hub : 1 < cfg.upper_bound_factor) :
    (s1.block_timestamp - s0.block_timestamp ≤ 0 →
      compute_fees_and_apr cfg capital s0 s1 none = .error .invalidPeriod) ∧
    (0 < s1.block_timestamp - s0.block_timestamp →
      compute_fee_growth_delta s0 s1 = (0, 0) →
      ∃ r, compute_fees_and_apr cfg capital s0 s1 none = .ok r ∧
        r.total_fees_usd = 0 ∧ r.apr_percent = 0) := by
  have hsim := simulate_liquidity_ok cfg capital s1.current_price_raw s1.mid_price
    s1.token0_decimals s1.token1_decimals hmid hhp h0 hl1 hub
  constructor
  · intro hper
    unfold compute_fees_and_apr
    dsimp only
    rw [hsim]
    dsimp only
    rw [if_pos hper]
  · intro hpos hdelta
    unfold compute_fees_and_apr
    dsimp only
    rw [hsim]
    dsimp only
    rw [if_neg (not_le.mpr hpos)]
    refine ⟨_, rfl, ?_, ?_⟩
    · dsimp only
      rw [hdelta]
      norm_num
    · dsimp only
      rw [hdelta]
      norm_num

/-- Witness for the C7 theorem: repository factors, capital 1000, two
snapshots five seconds apart with identical fee-growth state. -/
theorem compute_fees_and_apr_period_and_zero_witness :
    ((0 : ℝ) < 1 ∧ (0 : ℝ) ≤ 1 ∧ 0 < repoConfig.lower_bound_factor ∧
      repoConfig.lower_bound_factor ≤ 1 ∧ 1 < repoConfig.upper_bound_factor ∧
      (0 : ℤ) < 5 - 0) ∧
    ∃ r, compute_fees_and_apr repoConfig 1000
        ⟨0, 0, 0, 0, 0, 0, 0, 0, 1, 1, 0, 0⟩ ⟨0, 0, 0, 0, 0, 0, 0, 0, 1, 1, 5, 0⟩ none =
        .ok r ∧ r.total_fees_usd = 0 ∧ r.apr_percent = 0 :=
  ⟨⟨by norm_num, by norm_num, by norm_num [repoConfig], by norm_num [repoConfig],
      by norm_num [repoConfig], by norm_num⟩,
    (compute_fees_and_apr_period_and_zero repoConfig 1000
        ⟨0, 0, 0, 0, 0, 0, 0, 0, 1, 1, 0, 0⟩ ⟨0, 0, 0, 0, 0, 0, 0, 0, 1, 1, 5, 0⟩
        (by norm_num) (by norm_num) (by norm_num [repoConfig]) (by norm_num [repoConfig])
        (by norm_num [repoConfig])).2 (by norm_num) rfl⟩

/-! ## Claim C3: block search on a uniformly spaced chain -/

/-- Claim C3 counterexample: on a 2-seconds-per-block chain with latest
block 100 (timestamp 200) and target 196, the default tolerance of 5
seconds makes the quick exit return block 100, although block 98 is the
smallest block with timestamp at least the target (2 * 98 = 196). -/
theorem block_search_tolerance_cex :
    get_block_by_timestamp (fun n => 2 * (n : Int)) 100 196 none 5 50 = .ok 100 ∧
    (196 : Int) ≤ 2 * ((98 : Nat) : Int) ∧ (98 : Nat) < 100 := by
  refine ⟨?_, by norm_num, by norm_num⟩
  rfl

/-- The bisection loop with tolerance 0 over a strictly increasing
timestamp function: if everything below `low` is strictly before the
target and `high` is at or after it, and the bracket fits in the
remaining budget, the loop returns the least block at or after the
target. -/
lemma bsearch_loop_exact (getTs : Nat → Int) (hmono : StrictMono getTs) (target : Int) :
    ∀ f low high, high - low < 2 ^ f →
      (∀ i, i < low → getTs i < target) → target ≤ getTs high →
      ∃ n, bsearch_loop getTs target 0 low high (f + 1) = .ok n ∧
        target ≤ getTs n ∧ ∀ i, i < n → getTs i < target := by
  intro f
  induction f with
  | zero =>
    intro low high hbound hlow hhigh
    have hhl : high ≤ low := by omega
    rcases lt_or_eq_of_le hhl with hlt | heq
    · exact absurd hhigh (not_le.mpr (hlow high hlt))
    · subst heq
      rw [bsearch_loop]
      rw [if_neg (lt_irrefl high)]
      exact ⟨high, rfl, hhigh, hlow⟩
  | succ g IH =>
    intro low high hbound hlow hhigh
    by_cases hlh : low < high
    · rw [bsearch_loop, if_pos hlh]
      by_cases htol : ((getTs ((low + high) / 2) - target).natAbs ≤ 0)
      · have heq : getTs ((low + high) / 2) = target :=
          sub_eq_zero.mp (Int.natAbs_eq_zero.mp (Nat.le_zero.mp htol))
        rw [if_pos htol]
        refine ⟨(low + high) / 2, rfl, le_of_eq heq.symm, ?_⟩
        intro i hi
        calc getTs i < getTs ((low + high) / 2) := hmono hi
          _ = target := heq
      · rw [if_neg htol]
        have hne : getTs ((low + high) / 2) ≠ target := by
          intro h
          exact htol (by simp [h])
        have hmid_ge : low ≤ (low + high) / 2 := by omega
        have hmid_lt : (low + high) / 2 < high := by omega
        have h2 : (2 : ℕ) ^ (g + 1) = 2 * 2 ^ g := by rw [pow_succ]; ring
        by_cases hcmp : getTs ((low + high) / 2) < target
        · rw [if_pos hcmp]
          have hbound2 : high - ((low + high) / 2 + 1) < 2 ^ g := by omega
          have hlow2 : ∀ i, i < (low + high) / 2 + 1 → getTs i < target := by
            intro i hi
            rcases Nat.lt_succ_iff_lt_or_eq.mp hi with hlt | heqi
            · exact (hmono hlt).trans hcmp
            · subst heqi; exact hcmp
          exact IH ((low + high) / 2 + 1) high hbound2 hlow2 hhigh
        · rw [if_neg hcmp]
          have hge : target ≤ getTs ((low + high) / 2) := not_lt.mp hcmp
          have hbound2 : (low + high) / 2 - low < 2 ^ g := by omega
          exact IH low ((low + high) / 2) hbound2 hlow hge
    · have hhl : high ≤ low := not_lt.mp hlh
      rcases lt_or_eq_of_le hhl with hlt | heq
      · exact absurd hhigh (not_le.mpr (hlow high hlt))
      · subst heq
        rw [bsearch_loop]
        rw [if_neg (lt_irrefl high)]
        exact ⟨high, rfl, hhigh, hlow⟩

/-- Claim C3 (amended): for a chain with uniform block spacing
(timestamp of block n is n * blockTime, blockTime > 0), tolerance 0, a
target not after the latest block and a try budget with
latest < 2 ^ (maxTries - 1), get_block_by_timestamp returns the
smallest block number whose timestamp is at or after the target. -/
theorem block_search_uniform_least (bt latest : Nat) (target : Int) (maxTries : Nat)
    (hbt : 0 < bt) (hlat : latest < 2 ^ (maxTries - 1)) (hmt : 0 < maxTries)
    (htar : target ≤ (bt : Int) * latest) :
    ∃ n, get_block_by_timestamp (fun k => (bt : Int) * k) latest target none 0 maxTries = .ok n ∧
      target ≤ (bt : Int) * n ∧ ∀ m : Nat, target ≤ (bt : Int) * m → n ≤ m := by
  have hmono : StrictMono (fun k : Nat => (bt : Int) * k) := by
    intro a b hab
    dsimp only
    have hab' : (a : Int) < b := by exact_mod_cast hab
    have hbt' : (0 : Int) < bt := by exact_mod_cast hbt
    exact mul_lt_mul_of_pos_left hab' hbt'
  unfold get_block_by_timestamp
  rw [if_neg (not_lt.mpr htar)]
  by_cases hq : (((bt : Int) * latest - target).natAbs ≤ 0)
  · rw [if_pos hq]
    have heq : (bt : Int) * latest = target :=
      sub_eq_zero.mp (Int.natAbs_eq_zero.mp (Nat.le_zero.mp hq))
    refine ⟨latest, rfl, le_of_eq heq.symm, ?_⟩
    intro m hm
    by_contra hmn
    push_neg at hmn
    have hlt : (bt : Int) * m < (bt : Int) * latest := hmono hmn
    rw [heq] at hlt
    exact absurd hm (not_le.mpr hlt)
  · rw [if_neg hq]
    dsimp only
    obtain ⟨f, hf⟩ : ∃ f, maxTries = f + 1 := ⟨maxTries - 1, by omega⟩
    subst hf
    have hbound : latest - 0 < 2 ^ f := by
      have : (f + 1) - 1 = f := by omega
      rw [this] at hlat
      omega
    have hlow : ∀ i : Nat, i < 0 → (bt : Int) * i < target := by
      intro i hi
      exact absurd hi (Nat.not_lt_zero i)
    obtain ⟨n, hrun, hn1, hn2⟩ :=
      bsearch_loop_exact (fun k : Nat => (bt : Int) * k) hmono target f 0 latest hbound hlow htar
    refine ⟨n, hrun, hn1, ?_⟩
    intro m hm
    by_contra hmn
    push_neg at hmn
    exact absurd hm (not_le.mpr (hn2 m hmn))

/-- Witness for the amended C3 theorem: 2-seconds-per-block chain,
latest block 100, target timestamp 195, tolerance 0, 50 tries; the
returned block is the least one with timestamp at least 195. -/
theorem block_search_uniform_least_witness :
    ((0 : ℕ) < 2 ∧ (100 : ℕ) < 2 ^ (50 - 1) ∧ (0 : ℕ) < 50 ∧ (195 : Int) ≤ 2 * 100) ∧
    ∃ n, get_block_by_timestamp (fun k => (2 : Int) * k) 100 195 none 0 50 = .ok n ∧
      (195 : Int) ≤ 2 * n ∧ ∀ m : Nat, (195 : Int) ≤ 2 * m → n ≤ m :=
  ⟨⟨by norm_num, by norm_num, by norm_num, by norm_num⟩,
    block_search_uniform_least 2 100 195 50 (by norm_num) (by norm_num) (by norm_num)
      (by norm_num)⟩
